import Mathlib

/-!
Shallow embedding of the response-sanitizer core of the
vivaportugal-ai-backend repository, and proofs about it.

The embedded functions are translated from:
  * `normalizeCrop`          — src/unnamed/part_000 lines 98–125
                               (same function appears in src/unnamed/part_001),
  * `validateAIResponse`     — src/index.js lines 67–84 (v3.7.1 file),
  * the pixel-crop arithmetic of the `/api/upload` handler
                             — src/index.js lines 157–160 (v3.7.1 file)
                               and lines 389–392 (v4 file),
  * the fence-strip-and-parse step of the `/api/analyze` handler
                             — src/unnamed/part_000 lines 163–179.

JavaScript numbers are modelled as exact rationals (ℚ).  `Math.round`
rounds to the nearest integer with ties toward +∞, which is exactly
Mathlib's `round` (`⌊x + 1/2⌋`).  `Number(v.toFixed(4))` rounds the
value to 4 decimal places; we model it with the same nearest/ties-up
rule (`round4` below) — at the tie points used in the theorems below
the IEEE-754 doubles the JavaScript code computes lie strictly on the
side that makes `toFixed` round the same way.
-/

namespace VivaPortugal

/-- A crop rectangle whose four fields are (finite) numbers, as destructured
by `normalizeCrop` in src/unnamed/part_000. -/
structure Rect where
  x : ℚ
  y : ℚ
  width : ℚ
  height : ℚ
deriving DecidableEq

/-- `Number(v.toFixed(4))`: round to 4 decimal places. -/
def round4 (q : ℚ) : ℚ := (round (q * 10000) : ℤ) / 10000

/-- The per-field validity test of `normalizeCrop`
(src/unnamed/part_000 lines 106–111):
`x >= 0 && x <= 1 && y >= 0 && y <= 1 && width > 0 && width <= 1 && height > 0 && height <= 1`. -/
def rectValid (r : Rect) : Bool :=
  decide (0 ≤ r.x) && decide (r.x ≤ 1) &&
  decide (0 ≤ r.y) && decide (r.y ≤ 1) &&
  decide (0 < r.width) && decide (r.width ≤ 1) &&
  decide (0 < r.height) && decide (r.height ≤ 1)

/-- The default rectangle returned by `normalizeCrop` for a missing crop
(src/unnamed/part_000 line 100): `{ x: 0.1, y: 0.05, width: 0.8, height: 0.9 }`. -/
def DEFAULT_CROP : Rect := ⟨1/10, 1/20, 4/5, 9/10⟩

/-- `normalizeCrop` from src/unnamed/part_000 lines 98–125 (the *rescale*
policy).  A missing/null crop is `none`. -/
def normalizeCrop (crop : Option Rect) : Rect :=
  match crop with
  | none => DEFAULT_CROP
  | some r =>
    if rectValid r then r
    else
      let maxX := max (r.x + r.width) 1
      let maxY := max (r.y + r.height) 1
      ⟨round4 (r.x / maxX), round4 (r.y / maxY),
       round4 (r.width / maxX), round4 (r.height / maxY)⟩

/-- The range invariant the spec's contract asserts for `normalizeCrop`
outputs: `x,y ∈ [0,1]`, `width,height ∈ (0,1]`. -/
def rectInRange (r : Rect) : Prop :=
  0 ≤ r.x ∧ r.x ≤ 1 ∧ 0 ≤ r.y ∧ r.y ≤ 1 ∧
  0 < r.width ∧ r.width ≤ 1 ∧ 0 < r.height ∧ r.height ≤ 1

instance (r : Rect) : Decidable (rectInRange r) := by
  unfold rectInRange; infer_instance

/-! ## The validation pipeline (`validateAIResponse`, src/index.js lines 67–84) -/

/-- A JavaScript field value as far as the crop checks look at it:
either a (finite) number, or anything else (absent, string, `NaN` is not
modelled, …). -/
inductive JField where
  | num (q : ℚ)
  | notNum
deriving DecidableEq

/-- A crop object whose four fields may each be a number or not. -/
structure CropVal where
  x : JField
  y : JField
  width : JField
  height : JField
deriving DecidableEq

/-- The record shape `validateAIResponse` receives.  Each field is `some _`
exactly when the corresponding JavaScript value has the type the code
tests for (`title`/`description` a string, `keywords` an array, `board` a
string, `crop` a non-null object). -/
structure Record where
  pinterest_title : Option String
  pinterest_description : Option String
  keywords : Option (List String)
  board : Option String
  crop : Option CropVal
deriving DecidableEq

/-- `FALLBACK_CROP` from src/index.js line 59:
`{ x: 0.1, y: 0.1, width: 0.8, height: 0.8 }`. -/
def FALLBACK_CROP : CropVal :=
  ⟨.num (1/10), .num (1/10), .num (4/5), .num (4/5)⟩

/-- `ALLOWED_BOARDS` from src/index.js lines 60–65. -/
def ALLOWED_BOARDS : List String :=
  ["Portugal Gift Ideas", "Portuguese Home Decor", "Lisbon Travel Gifts", "Azulejo Art"]

/-- The title check of src/index.js line 68:
`typeof data.pinterest_title === "string" && data.pinterest_title.length >= 15`. -/
def titleOk (data : Record) : Bool :=
  match data.pinterest_title with
  | some t => decide (15 ≤ t.length)
  | none => false

/-- The description check of src/index.js line 71:
a string with `250 ≤ length ≤ 850`. -/
def descrOk (data : Record) : Bool :=
  match data.pinterest_description with
  | some d => decide (250 ≤ d.length) && decide (d.length ≤ 850)
  | none => false

/-- The keywords check of src/index.js line 74:
an array with `3 ≤ length ≤ 12`. -/
def keywordsOk (data : Record) : Bool :=
  match data.keywords with
  | some ks => decide (3 ≤ ks.length) && decide (ks.length ≤ 12)
  | none => false

/-- The board repair of src/index.js lines 77–78:
`if (!ALLOWED_BOARDS.includes(data.board)) data.board = ALLOWED_BOARDS[0]`. -/
def fixBoard (b : Option String) : String :=
  match b with
  | some s => if s ∈ ALLOWED_BOARDS then s else ALLOWED_BOARDS.headI
  | none => ALLOWED_BOARDS.headI

/-- The crop repair of src/index.js lines 80–81:
`if (!data.crop || typeof data.crop.x !== "number") data.crop = FALLBACK_CROP`. -/
def fixCrop (c : Option CropVal) : CropVal :=
  match c with
  | none => FALLBACK_CROP
  | some cv =>
    match cv.x with
    | .num _ => cv
    | .notNum => FALLBACK_CROP

/-- `validateAIResponse` from src/index.js lines 67–84.  A thrown
`Error(msg)` is modelled as `Except.error msg`. -/
def validateAIResponse (data : Record) : Except String Record :=
  if titleOk data then
    if descrOk data then
      if keywordsOk data then
        Except.ok { data with board := some (fixBoard data.board),
                              crop := some (fixCrop data.crop) }
      else Except.error "Invalid keywords array"
    else Except.error "Invalid description length"
  else Except.error "Invalid title from AI"

/-- The field is a number lying in `[0,1]`. -/
def jIn01 : JField → Prop
  | .num q => 0 ≤ q ∧ q ≤ 1
  | .notNum => False

/-- The field is a number lying in `(0,1]`. -/
def jIn01pos : JField → Prop
  | .num q => 0 < q ∧ q ≤ 1
  | .notNum => False

instance (f : JField) : Decidable (jIn01 f) := by
  cases f <;> simp only [jIn01] <;> infer_instance

instance (f : JField) : Decidable (jIn01pos f) := by
  cases f <;> simp only [jIn01pos] <;> infer_instance

/-- The crop range invariant on a `CropVal`: all four fields numeric, with
`x,y ∈ [0,1]` and `width,height ∈ (0,1]`. -/
def cropValInRange (c : CropVal) : Prop :=
  jIn01 c.x ∧ jIn01 c.y ∧ jIn01pos c.width ∧ jIn01pos c.height

instance (c : CropVal) : Decidable (cropValInRange c) := by
  unfold cropValInRange; infer_instance

/-- Did the call return normally (`Except.ok`) rather than throw? -/
def exceptOk (e : Except String Record) : Bool :=
  match e with
  | .ok _ => true
  | .error _ => false

/-! ## Pixel-crop conversion (`/api/upload`) -/

/-- An integer pixel rectangle. -/
structure PxRect where
  x : ℤ
  y : ℤ
  w : ℤ
  h : ℤ
deriving DecidableEq

/-- The pixel-crop arithmetic of the v3.7.1 `/api/upload` handler
(src/index.js lines 157–160).  `Math.round` is `round` (nearest, ties
toward `+∞`):
```
x = Math.max(0, Math.min(W - 1, Math.round(crop.x * W)))
y = Math.max(0, Math.min(H - 1, Math.round(crop.y * H)))
w = Math.max(1, Math.min(W - x, Math.round(crop.width * W)))
h = Math.max(1, Math.min(H - y, Math.round(crop.height * H)))
``` -/
def pixelCrop (W H : ℤ) (crop : Rect) : PxRect :=
  let x := max 0 (min (W - 1) (round (crop.x * W)))
  let y := max 0 (min (H - 1) (round (crop.y * H)))
  let w := max 1 (min (W - x) (round (crop.width * W)))
  let h := max 1 (min (H - y) (round (crop.height * H)))
  ⟨x, y, w, h⟩

/-- The pixel-crop arithmetic of the v4 `/api/upload` handler
(src/index.js lines 389–392):
```
x = Math.max(0, Math.round(crop.x * W))
y = Math.max(0, Math.round(crop.y * H))
w = Math.max(1, Math.round(crop.width * W))
h = Math.max(1, Math.round(crop.height * H))
``` -/
def pixelCropV4 (W H : ℤ) (crop : Rect) : PxRect :=
  ⟨max 0 (round (crop.x * W)), max 0 (round (crop.y * H)),
   max 1 (round (crop.width * W)), max 1 (round (crop.height * H))⟩

/-! ## Fence-stripping and JSON parsing (`/api/analyze`, src/unnamed/part_000 lines 163–179)

`JSON.parse` is the JavaScript builtin; we embed a strict parser for the
JSON grammar (ECMA-404): values are `null`, booleans, numbers, strings,
arrays and objects, with insignificant whitespace being exactly space,
tab, line feed and carriage return.  Numbers are modelled as the exact
rational value of the decimal literal. -/

/-- A parsed JSON value. -/
inductive Json where
  | null
  | bool (b : Bool)
  | num (q : ℚ)
  | str (s : String)
  | arr (elems : List Json)
  | obj (members : List (String × Json))

/-- The four JSON whitespace characters (also the characters
`String.trim` removes for the ASCII inputs that occur here). -/
def isWsChar (c : Char) : Bool :=
  c = ' ' || c = '\t' || c = '\n' || c = '\r'

/-- Drop leading whitespace. -/
def skipWs (cs : List Char) : List Char := List.dropWhile isWsChar cs

/-- `String.prototype.trim` on a character list. -/
def trimChars (cs : List Char) : List Char :=
  ((skipWs cs).reverse.dropWhile isWsChar).reverse

/-- `text.replace(/```json|```/g, "")` (src/unnamed/part_000 line 170):
at each position the regex first tries to match `` ```json ``, then
`` ``` ``; unmatched characters are kept. -/
def stripFencesAux : List Char → List Char
  | '`' :: '`' :: '`' :: 'j' :: 's' :: 'o' :: 'n' :: rest => stripFencesAux rest
  | '`' :: '`' :: '`' :: rest => stripFencesAux rest
  | c :: rest => c :: stripFencesAux rest
  | [] => []

/-- Parse the characters of a JSON string after the opening quote,
returning the string's characters and the input after the closing
quote. -/
def parseStrChars : List Char → Option (List Char × List Char)
  | '"' :: rest => some ([], rest)
  | '\\' :: 'u' :: h1 :: h2 :: h3 :: h4 :: rest =>
    if isHex h1 && isHex h2 && isHex h3 && isHex h4 then
      (parseStrChars rest).map fun p =>
        (Char.ofNat (4096 * hexVal h1 + 256 * hexVal h2 + 16 * hexVal h3 + hexVal h4) :: p.1,
         p.2)
    else none
  | '\\' :: e :: rest =>
    match unescape e with
    | some c => (parseStrChars rest).map fun p => (c :: p.1, p.2)
    | none => none
  | c :: rest =>
    if c.toNat < 32 then none
    else (parseStrChars rest).map fun p => (c :: p.1, p.2)
  | [] => none
where
  /-- Is `c` a hexadecimal digit? -/
  isHex (c : Char) : Bool :=
    c.isDigit || ('a' ≤ c && c ≤ 'f') || ('A' ≤ c && c ≤ 'F')
  /-- Value of a hexadecimal digit. -/
  hexVal (c : Char) : Nat :=
    if c.isDigit then c.toNat - 48
    else if 'a' ≤ c then c.toNat - 87 else c.toNat - 55
  /-- The single-character JSON escapes. -/
  unescape : Char → Option Char
    | '"' => some '"'
    | '\\' => some '\\'
    | '/' => some '/'
    | 'b' => some (Char.ofNat 8)
    | 'f' => some (Char.ofNat 12)
    | 'n' => some '\n'
    | 'r' => some '\r'
    | 't' => some '\t'
    | _ => none

/-- Numeric value of a list of decimal digit characters. -/
def digitsToNat (ds : List Char) : Nat :=
  ds.foldl (fun n c => 10 * n + (c.toNat - 48)) 0

/-- Parse a JSON number (`-?(0|[1-9][0-9]*)(\.[0-9]+)?([eE][+-]?[0-9]+)?`)
as an exact rational. -/
def parseNumber (cs : List Char) : Option (ℚ × List Char) :=
  let (neg, cs1) : Bool × List Char :=
    match cs with
    | '-' :: r => (true, r)
    | _ => (false, cs)
  match intPart cs1 with
  | none => none
  | some (i, cs2) =>
    let fracPart : Option (Nat × Nat × List Char) :=
      match cs2 with
      | '.' :: r =>
        let ds := r.takeWhile Char.isDigit
        if ds.length = 0 then none
        else some (digitsToNat ds, ds.length, r.dropWhile Char.isDigit)
      | _ => some (0, 0, cs2)
    match fracPart with
    | none => none
    | some (f, fl, cs3) =>
      match expPart cs3 with
      | none => none
      | some (esign, e, cs4) =>
        let mag : ℚ := ((i : ℚ) + (f : ℚ) / (10 : ℚ) ^ fl) *
          (if esign then ((10 : ℚ) ^ e)⁻¹ else (10 : ℚ) ^ e)
        some (if neg then -mag else mag, cs4)
where
  /-- The integer part: `0`, or a nonzero digit followed by digits. -/
  intPart (cs : List Char) : Option (Nat × List Char) :=
    match cs with
    | '0' :: r => some (0, r)
    | c :: _ =>
      if c.isDigit then
        some (digitsToNat (cs.takeWhile Char.isDigit), cs.dropWhile Char.isDigit)
      else none
    | [] => none
  /-- The optional exponent: returns (negative?, magnitude, rest). -/
  expPart (cs : List Char) : Option (Bool × Nat × List Char) :=
    match cs with
    | c :: r =>
      if c = 'e' ∨ c = 'E' then
        let (es, r1) : Bool × List Char :=
          match r with
          | '-' :: r2 => (true, r2)
          | '+' :: r2 => (false, r2)
          | _ => (false, r)
        let ds := r1.takeWhile Char.isDigit
        if ds.length = 0 then none
        else some (es, digitsToNat ds, r1.dropWhile Char.isDigit)
      else some (false, 0, cs)
    | [] => some (false, 0, cs)

mutual

/-- Parse one JSON value at the head of the input (no leading
whitespace), returning it with the remaining input. -/
def parseValue : Nat → List Char → Option (Json × List Char)
  | 0, _ => none
  | fuel + 1, cs =>
    match cs with
    | 'n' :: 'u' :: 'l' :: 'l' :: r => some (.null, r)
    | 't' :: 'r' :: 'u' :: 'e' :: r => some (.bool true, r)
    | 'f' :: 'a' :: 'l' :: 's' :: 'e' :: r => some (.bool false, r)
    | '"' :: r => (parseStrChars r).map fun p => (.str (String.mk p.1), p.2)
    | '[' :: r =>
      (match skipWs r with
       | ']' :: r2 => some (.arr [], r2)
       | r2 => (parseElems fuel r2).map fun p => (.arr p.1, p.2))
    | '{' :: r =>
      (match skipWs r with
       | '}' :: r2 => some (.obj [], r2)
       | r2 => (parseMembers fuel r2).map fun p => (.obj p.1, p.2))
    | _ => (parseNumber cs).map fun p => (.num p.1, p.2)

/-- Parse a nonempty comma-separated list of values up to the closing
`]`. -/
def parseElems : Nat → List Char → Option (List Json × List Char)
  | 0, _ => none
  | fuel + 1, cs => do
    let (v, r) ← parseValue fuel cs
    match skipWs r with
    | ',' :: r2 => do
      let (vs, r3) ← parseElems fuel (skipWs r2)
      pure (v :: vs, r3)
    | ']' :: r2 => pure ([v], r2)
    | _ => none

/-- Parse a nonempty comma-separated list of `"key": value` members up
to the closing `}`. -/
def parseMembers : Nat → List Char → Option (List (String × Json) × List Char)
  | 0, _ => none
  | fuel + 1, cs =>
    match cs with
    | '"' :: r => do
      let (key, r1) ← parseStrChars r
      match skipWs r1 with
      | ':' :: r2 => do
        let (v, r3) ← parseValue fuel (skipWs r2)
        match skipWs r3 with
        | ',' :: r4 => do
          let (ms, r5) ← parseMembers fuel (skipWs r4)
          pure ((String.mk key, v) :: ms, r5)
        | '}' :: r4 => pure ([(String.mk key, v)], r4)
        | _ => none
      | _ => none
    | _ => none

end

/-- Strict `JSON.parse`: one JSON value surrounded by optional
whitespace, and nothing else. -/
def parseJson (s : String) : Option Json :=
  match parseValue (2 * s.length + 2) (skipWs s.data) with
  | some (v, rest) => if skipWs rest = [] then some v else none
  | none => none

/-- The two failure modes of the fence-strip-and-parse step that the
handler reports to its caller. -/
inductive ParseError where
  | emptyResponse
  | invalidJson
deriving DecidableEq

/-- The fence-strip-and-parse step of the `/api/analyze` handler
(src/unnamed/part_000 lines 163–179):
```
let text = raw.trim();
if (!text) throw Error("Empty AI response");           -- emptyResponse
if (text.startsWith("```"))
  text = text.replace(/```json|```/g, "").trim();
try { parsed = JSON.parse(text) }
catch { return 500 "Invalid JSON from AI" }            -- invalidJson
``` -/
def parseModelOutput (raw : String) : Except ParseError Json :=
  let text := trimChars raw.data
  if text = [] then .error .emptyResponse
  else
    let text2 :=
      match text with
      | '`' :: '`' :: '`' :: _ => trimChars (stripFencesAux text)
      | _ => text
    match parseJson (String.mk text2) with
    | some v => .ok v
    | none => .error .invalidJson

/-! ## Concrete sample data for witnesses and counterexamples -/

/-- A sample title of length 27 (≥ 15). -/
def sampleTitle : String := "Azulejo Wall Art From Porto"

/-- A sample description of length 300 (within `[250, 850]`). -/
def sampleDescr : String := String.mk (List.replicate 300 'a')

/-- A sample keywords array of length 3 (within `[3, 12]`). -/
def sampleKeywords : List String := ["azulejo tile", "porto souvenir", "portugal gift"]

/-- A record passing every hard check, with an allow-listed board and the
fallback crop. -/
def baseRecord : Record :=
  { pinterest_title := some sampleTitle
    pinterest_description := some sampleDescr
    keywords := some sampleKeywords
    board := some "Azulejo Art"
    crop := some FALLBACK_CROP }

/-- A crop whose four fields are numbers but all lie outside the valid
range. -/
def outOfRangeCrop : CropVal := ⟨.num 5, .num 5, .num 5, .num 5⟩

/-- A crop whose `x` is a number but whose other three fields are not
numbers. -/
def numericXCrop : CropVal := ⟨.num 5, .notNum, .notNum, .notNum⟩

/-- A fully in-range crop object. -/
def validCrop : CropVal := ⟨.num (1/10), .num (1/20), .num (4/5), .num (9/10)⟩

/-! ## Helper lemmas -/

theorem rectValid_iff (r : Rect) : rectValid r = true ↔ rectInRange r := by
  simp [rectValid, rectInRange, and_assoc]

theorem round4_nonneg {q : ℚ} (h : 0 ≤ q) : 0 ≤ round4 q := by
  unfold round4
  apply div_nonneg _ (by norm_num)
  have h1 : (0 : ℤ) ≤ round (q * 10000) := by
    rw [round_eq]
    exact Int.le_floor.mpr (by push_cast; linarith)
  exact_mod_cast h1

theorem round4_le_one {q : ℚ} (h : q ≤ 1) : round4 q ≤ 1 := by
  unfold round4
  rw [div_le_one (by norm_num)]
  have h1 : round (q * 10000) ≤ 10000 := by
    rw [round_eq]
    have := Int.floor_lt.mpr (show (q * 10000 + 1/2 : ℚ) < ((10001 : ℤ) : ℚ) by push_cast; linarith)
    omega
  exact_mod_cast h1

theorem normalizeCrop_valid_id {r : Rect} (h : rectValid r = true) :
    normalizeCrop (some r) = r := by
  simp [normalizeCrop, h]

theorem fixBoard_mem (b : Option String) : fixBoard b ∈ ALLOWED_BOARDS := by
  match b with
  | none => simp [fixBoard, ALLOWED_BOARDS]
  | some s =>
    show (if s ∈ ALLOWED_BOARDS then s else ALLOWED_BOARDS.headI) ∈ ALLOWED_BOARDS
    by_cases h : s ∈ ALLOWED_BOARDS
    · rw [if_pos h]; exact h
    · rw [if_neg h]; simp [ALLOWED_BOARDS]

theorem validate_ok_iff (data res : Record) :
    validateAIResponse data = .ok res ↔
      titleOk data = true ∧ descrOk data = true ∧ keywordsOk data = true ∧
      res = { data with board := some (fixBoard data.board),
                        crop := some (fixCrop data.crop) } := by
  unfold validateAIResponse
  split_ifs with h1 h2 h3
  · exact ⟨fun h => ⟨h1, h2, h3, (Except.ok.inj h).symm⟩, fun ⟨_, _, _, h⟩ => by rw [h]⟩
  · exact ⟨fun h => (nomatch h), fun ⟨_, _, hk, _⟩ => absurd hk h3⟩
  · exact ⟨fun h => (nomatch h), fun ⟨_, hd, _, _⟩ => absurd hd h2⟩
  · exact ⟨fun h => (nomatch h), fun ⟨ht, _, _, _⟩ => absurd ht h1⟩

/-! ## C1 — the rescale-policy range contract -/

/-- C1, counterexample: the claim "under the rescale policy
`normalizeCrop` always returns a rectangle with `x,y ∈ [0,1]`,
`width,height ∈ (0,1]`" is false for arbitrary numeric fields.  For
`{x: -1, y: 0, width: 0.5, height: 0.5}` the output keeps `x = -1 ∉
[0,1]`, and for `{x: 2, y: 0, width: 0.00001, height: 1}` rounding to 4
decimal places produces `width = 0 ∉ (0,1]`. -/
theorem normalizeCrop_contract_counterexample :
    ¬ rectInRange (normalizeCrop (some ⟨-1, 0, 1/2, 1/2⟩)) ∧
    ¬ rectInRange (normalizeCrop (some ⟨2, 0, 1/100000, 1⟩)) := by
  have h1 : normalizeCrop (some ⟨-1, 0, 1/2, 1/2⟩) = ⟨-1, 0, 1/2, 1/2⟩ := by
    with_unfolding_all rfl
  have h2 : normalizeCrop (some ⟨2, 0, 1/100000, 1⟩) = ⟨1, 0, 0, 1⟩ := by
    with_unfolding_all rfl
  rw [h1, h2]
  constructor
  · intro h
    have hx := h.1
    norm_num at hx
  · intro h
    have hw := h.2.2.2.2.1
    norm_num at hw

/-- C1, amended: `normalizeCrop` under the rescale policy never fails,
and whenever the crop is missing, or its four fields are numbers with
`x,y ≥ 0` and `width,height > 0`, the output satisfies `x,y ∈ [0,1]` and
`width,height ∈ [0,1]` (width/height may round down to `0`; negative
inputs can escape the ranges entirely, per the counterexample). -/
theorem normalizeCrop_range_of_nonneg (c : Option Rect)
    (h : ∀ r, c = some r → 0 ≤ r.x ∧ 0 ≤ r.y ∧ 0 < r.width ∧ 0 < r.height) :
    0 ≤ (normalizeCrop c).x ∧ (normalizeCrop c).x ≤ 1 ∧
    0 ≤ (normalizeCrop c).y ∧ (normalizeCrop c).y ≤ 1 ∧
    0 ≤ (normalizeCrop c).width ∧ (normalizeCrop c).width ≤ 1 ∧
    0 ≤ (normalizeCrop c).height ∧ (normalizeCrop c).height ≤ 1 := by
  match c with
  | none =>
    simp only [normalizeCrop]
    norm_num [DEFAULT_CROP]
  | some r =>
    obtain ⟨hx, hy, hw, hh⟩ := h r rfl
    by_cases hv : rectValid r = true
    · rw [normalizeCrop_valid_id hv]
      obtain ⟨h1, h2, h3, h4, h5, h6, h7, h8⟩ := (rectValid_iff r).mp hv
      exact ⟨h1, h2, h3, h4, le_of_lt h5, h6, le_of_lt h7, h8⟩
    · have hmx : (0 : ℚ) < max (r.x + r.width) 1 :=
        lt_of_lt_of_le one_pos (le_max_right _ _)
      have hmy : (0 : ℚ) < max (r.y + r.height) 1 :=
        lt_of_lt_of_le one_pos (le_max_right _ _)
      have hxle : r.x / max (r.x + r.width) 1 ≤ 1 := by
        rw [div_le_one hmx]
        calc r.x ≤ r.x + r.width := by linarith
          _ ≤ max (r.x + r.width) 1 := le_max_left _ _
      have hyle : r.y / max (r.y + r.height) 1 ≤ 1 := by
        rw [div_le_one hmy]
        calc r.y ≤ r.y + r.height := by linarith
          _ ≤ max (r.y + r.height) 1 := le_max_left _ _
      have hwle : r.width / max (r.x + r.width) 1 ≤ 1 := by
        rw [div_le_one hmx]
        calc r.width ≤ r.x + r.width := by linarith
          _ ≤ max (r.x + r.width) 1 := le_max_left _ _
      have hhle : r.height / max (r.y + r.height) 1 ≤ 1 := by
        rw [div_le_one hmy]
        calc r.height ≤ r.y + r.height := by linarith
          _ ≤ max (r.y + r.height) 1 := le_max_left _ _
      simp only [normalizeCrop, hv, if_false, Bool.false_eq_true]
      exact ⟨round4_nonneg (div_nonneg hx hmx.le), round4_le_one hxle,
             round4_nonneg (div_nonneg hy hmy.le), round4_le_one hyle,
             round4_nonneg (div_nonneg hw.le hmx.le), round4_le_one hwle,
             round4_nonneg (div_nonneg hh.le hmy.le), round4_le_one hhle⟩

/-- C1, witness: the amended theorem applied to the out-of-range but
nonnegative crop `{x: 2, y: 3, width: 5, height: 7}`. -/
theorem normalizeCrop_range_of_nonneg_witness :
    0 ≤ (normalizeCrop (some ⟨2, 3, 5, 7⟩)).x ∧ (normalizeCrop (some ⟨2, 3, 5, 7⟩)).x ≤ 1 ∧
    0 ≤ (normalizeCrop (some ⟨2, 3, 5, 7⟩)).y ∧ (normalizeCrop (some ⟨2, 3, 5, 7⟩)).y ≤ 1 ∧
    0 ≤ (normalizeCrop (some ⟨2, 3, 5, 7⟩)).width ∧ (normalizeCrop (some ⟨2, 3, 5, 7⟩)).width ≤ 1 ∧
    0 ≤ (normalizeCrop (some ⟨2, 3, 5, 7⟩)).height ∧ (normalizeCrop (some ⟨2, 3, 5, 7⟩)).height ≤ 1 :=
  normalizeCrop_range_of_nonneg (some ⟨2, 3, 5, 7⟩)
    (fun r hr => by cases hr; exact ⟨by norm_num, by norm_num, by norm_num, by norm_num⟩)

/-! ## C8 — idempotence of the rescale policy -/

/-- C8, counterexample: the claim "under the rescale policy
`normalizeCrop` is idempotent on every numeric out-of-range crop" is
false.  For `{x: 1, y: -1, width: 19999, height: 1}` one application
yields `{x: 0.0001, y: -1, width: 1, height: 1}` (the `x`-axis rounds up
so that `x + width = 1.0001 > 1`, and `y` stays negative so the output
is still out of range); a second application then rescales by `1.0001`
and yields `width = 0.9999 ≠ 1`. -/
theorem normalizeCrop_idempotent_counterexample :
    normalizeCrop (some (normalizeCrop (some ⟨1, -1, 19999, 1⟩))) ≠
      normalizeCrop (some ⟨1, -1, 19999, 1⟩) := by
  have h1 : normalizeCrop (some ⟨1, -1, 19999, 1⟩) = ⟨1/10000, -1, 1, 1⟩ := by
    with_unfolding_all rfl
  have h2 : normalizeCrop (some ⟨1/10000, -1, 1, 1⟩) = ⟨1/10000, -1, 9999/10000, 1⟩ := by
    with_unfolding_all rfl
  rw [h1, h2]
  intro h
  have hw := congrArg Rect.width h
  norm_num at hw

/-- C8, amended: re-applying `normalizeCrop` to its own output returns
the same rectangle whenever that output satisfies the range invariants
(the spec's justification "since the output is already in-range");
when the output escapes the ranges — possible per C1's counterexample —
idempotence can fail. -/
theorem normalizeCrop_idempotent_of_inRange (c : Option Rect)
    (h : rectInRange (normalizeCrop c)) :
    normalizeCrop (some (normalizeCrop c)) = normalizeCrop c :=
  normalizeCrop_valid_id ((rectValid_iff _).mpr h)

/-- C8, witness: the amended theorem applied to the out-of-range crop
`{x: 0, y: 0, width: 2, height: 2}`, whose normalization
`{x: 0, y: 0, width: 1, height: 1}` is in range. -/
theorem normalizeCrop_idempotent_of_inRange_witness :
    rectInRange (normalizeCrop (some ⟨0, 0, 2, 2⟩)) ∧
    normalizeCrop (some (normalizeCrop (some ⟨0, 0, 2, 2⟩))) =
      normalizeCrop (some ⟨0, 0, 2, 2⟩) := by
  have h : rectInRange (normalizeCrop (some ⟨0, 0, 2, 2⟩)) := by
    have he : normalizeCrop (some ⟨0, 0, 2, 2⟩) = ⟨0, 0, 1, 1⟩ := by
      with_unfolding_all rfl
    rw [he]
    norm_num [rectInRange]
  exact ⟨h, normalizeCrop_idempotent_of_inRange (some ⟨0, 0, 2, 2⟩) h⟩

/-! ## C2 — pixel-crop bounds -/

/-- C2, counterexample: the claim describes *the* pixel-crop conversion
as clamping width against remaining space, but the v4 handler
(src/index.js lines 389–392) only clamps from below: with `W = H = 10`
and the in-range rectangle `{x: 1, y: 1, width: 1, height: 1}` it
produces `x_px = w_px = 10`, so `x_px + w_px = 20 > W`. -/
theorem pixelCropV4_counterexample :
    rectInRange ⟨1, 1, 1, 1⟩ ∧
    ¬ ((pixelCropV4 10 10 ⟨1, 1, 1, 1⟩).x + (pixelCropV4 10 10 ⟨1, 1, 1, 1⟩).w ≤ 10) := by
  constructor
  · norm_num [rectInRange]
  · have h : pixelCropV4 10 10 ⟨1, 1, 1, 1⟩ = ⟨10, 10, 10, 10⟩ := by
      with_unfolding_all rfl
    rw [h]
    decide

/-- C2, amended: the v3.7.1 pixel-crop conversion (src/index.js lines
157–160), which clamps width/height against the remaining space, does
satisfy all the claimed bounds: for `W, H ≥ 1` and any in-range relative
rectangle, `x_px, y_px ≥ 0`, `w_px, h_px ≥ 1`, `w_px ≤ W − x_px` and
`h_px ≤ H − y_px` (hence `x_px + w_px ≤ W` and `y_px + h_px ≤ H`). -/
theorem pixelCrop_bounds (W H : ℤ) (r : Rect) (hW : 1 ≤ W) (hH : 1 ≤ H)
    (hr : rectInRange r) :
    0 ≤ (pixelCrop W H r).x ∧ 0 ≤ (pixelCrop W H r).y ∧
    1 ≤ (pixelCrop W H r).w ∧ 1 ≤ (pixelCrop W H r).h ∧
    (pixelCrop W H r).w ≤ W - (pixelCrop W H r).x ∧
    (pixelCrop W H r).h ≤ H - (pixelCrop W H r).y ∧
    (pixelCrop W H r).x + (pixelCrop W H r).w ≤ W ∧
    (pixelCrop W H r).y + (pixelCrop W H r).h ≤ H := by
  simp only [pixelCrop]
  omega

/-- C2, witness: the amended theorem applied to `W = H = 10` and the
default rectangle `{x: 0.1, y: 0.05, width: 0.8, height: 0.9}`. -/
theorem pixelCrop_bounds_witness :
    0 ≤ (pixelCrop 10 10 DEFAULT_CROP).x ∧ 0 ≤ (pixelCrop 10 10 DEFAULT_CROP).y ∧
    1 ≤ (pixelCrop 10 10 DEFAULT_CROP).w ∧ 1 ≤ (pixelCrop 10 10 DEFAULT_CROP).h ∧
    (pixelCrop 10 10 DEFAULT_CROP).w ≤ 10 - (pixelCrop 10 10 DEFAULT_CROP).x ∧
    (pixelCrop 10 10 DEFAULT_CROP).h ≤ 10 - (pixelCrop 10 10 DEFAULT_CROP).y ∧
    (pixelCrop 10 10 DEFAULT_CROP).x + (pixelCrop 10 10 DEFAULT_CROP).w ≤ 10 ∧
    (pixelCrop 10 10 DEFAULT_CROP).y + (pixelCrop 10 10 DEFAULT_CROP).h ≤ 10 :=
  pixelCrop_bounds 10 10 DEFAULT_CROP (by decide) (by decide)
    (by norm_num [rectInRange, DEFAULT_CROP])

/-! ## C3 — the strict-fallback replacement condition -/

set_option maxRecDepth 20000 in
/-- C3, counterexample: the claim "any field outside its valid range
causes the whole crop to be replaced by the fixed default" is false: the
code (src/index.js lines 80–81) only tests `!data.crop ||
typeof data.crop.x !== "number"`.  A crop with all four fields numeric
but equal to `5` (outside every range) passes through unchanged instead
of being replaced. -/
theorem strict_fallback_counterexample :
    validateAIResponse { baseRecord with crop := some outOfRangeCrop } =
      .ok { baseRecord with crop := some outOfRangeCrop } ∧
    ¬ cropValInRange outOfRangeCrop ∧
    outOfRangeCrop ≠ FALLBACK_CROP := by
  refine ⟨by with_unfolding_all rfl, ?_, ?_⟩
  · intro h
    have hx := h.1
    have : (0 : ℚ) ≤ 5 ∧ (5 : ℚ) ≤ 1 := hx
    have h5 := this.2
    norm_num at h5
  · intro h
    have hx := congrArg CropVal.x h
    have : JField.num 5 = JField.num (1/10) := hx
    have hq := JField.num.inj this
    norm_num at hq

/-- C3, amended: the crop is replaced by `FALLBACK_CROP` exactly when it
is missing or its `x` field is not a number; when `x` is a number the
crop object is kept unchanged, with no range check on any of the four
fields. -/
theorem strict_fallback_condition :
    (∀ data res, validateAIResponse data = .ok res → res.crop = some (fixCrop data.crop)) ∧
    fixCrop none = FALLBACK_CROP ∧
    (∀ cv : CropVal, cv.x = .notNum → fixCrop (some cv) = FALLBACK_CROP) ∧
    (∀ (cv : CropVal) (q : ℚ), cv.x = .num q → fixCrop (some cv) = cv) := by
  refine ⟨?_, rfl, ?_, ?_⟩
  · intro data res h
    obtain ⟨-, -, -, hres⟩ := (validate_ok_iff data res).mp h
    rw [hres]
  · intro cv h
    obtain ⟨x, y, w, hgt⟩ := cv
    cases h
    rfl
  · intro cv q h
    obtain ⟨x, y, w, hgt⟩ := cv
    cases h
    rfl

/-- C3, witness: the amended theorem applied to the out-of-range crop
(kept unchanged because its `x` is a number) and to a crop whose `x` is
not a number (replaced by the fallback). -/
theorem strict_fallback_condition_witness :
    fixCrop (some outOfRangeCrop) = outOfRangeCrop ∧
    fixCrop (some numericXCrop) = numericXCrop ∧
    fixCrop (some ⟨.notNum, .num 0, .num 1, .num 1⟩) = FALLBACK_CROP ∧
    fixCrop none = FALLBACK_CROP :=
  ⟨strict_fallback_condition.2.2.2 outOfRangeCrop 5 rfl,
   strict_fallback_condition.2.2.2 numericXCrop 5 rfl,
   strict_fallback_condition.2.2.1 ⟨.notNum, .num 0, .num 1, .num 1⟩ rfl,
   strict_fallback_condition.2.1⟩

/-! ## C4 — already-valid input passes through unchanged -/

/-- C4: every in-range rectangle is returned unchanged by
`normalizeCrop`, and a fully valid record (title, description, keywords
within bounds, board in the allow-list, crop in valid range) is returned
by `validateAIResponse` identical to its input, with no corrections. -/
theorem valid_passthrough (r : Rect) (data : Record)
    (hr : rectInRange r)
    (ht : titleOk data = true) (hd : descrOk data = true) (hk : keywordsOk data = true)
    (hb : ∃ b, data.board = some b ∧ b ∈ ALLOWED_BOARDS)
    (hc : ∃ cv, data.crop = some cv ∧ cropValInRange cv) :
    normalizeCrop (some r) = r ∧ validateAIResponse data = .ok data := by
  obtain ⟨b, hb1, hb2⟩ := hb
  obtain ⟨cv, hc1, hcr⟩ := hc
  constructor
  · exact normalizeCrop_valid_id ((rectValid_iff r).mpr hr)
  · apply (validate_ok_iff data data).mpr
    refine ⟨ht, hd, hk, ?_⟩
    have hb' : fixBoard data.board = b := by
      rw [hb1]
      show (if b ∈ ALLOWED_BOARDS then b else ALLOWED_BOARDS.headI) = b
      rw [if_pos hb2]
    have hc' : fixCrop data.crop = cv := by
      rw [hc1]
      have hx := hcr.1
      obtain ⟨x, y, w, hgt⟩ := cv
      cases x with
      | num q => rfl
      | notNum => exact absurd hx (by simp [jIn01])
    rw [hb', hc', ← hb1, ← hc1]

set_option maxRecDepth 20000 in
/-- C4, witness: the theorem applied to the in-range rectangle
`{x: 0.1, y: 0.05, width: 0.8, height: 0.9}` and a concrete fully valid
record. -/
theorem valid_passthrough_witness :
    normalizeCrop (some ⟨1/10, 1/20, 4/5, 9/10⟩) = ⟨1/10, 1/20, 4/5, 9/10⟩ ∧
    validateAIResponse { baseRecord with crop := some validCrop } =
      .ok { baseRecord with crop := some validCrop } :=
  valid_passthrough ⟨1/10, 1/20, 4/5, 9/10⟩ { baseRecord with crop := some validCrop }
    (by norm_num [rectInRange])
    (by with_unfolding_all rfl)
    (by with_unfolding_all rfl)
    (by with_unfolding_all rfl)
    ⟨"Azulejo Art", rfl, by simp [ALLOWED_BOARDS]⟩
    ⟨validCrop, rfl, by norm_num [cropValInRange, validCrop, jIn01, jIn01pos]⟩

/-! ## C5 — hard failures exactly for title/description/keywords -/

set_option maxRecDepth 20000 in
/-- C5: `validateAIResponse` returns normally exactly when the title,
description and keywords checks all pass (board and crop defects never
raise); in particular a record with 2 keywords (below the minimum of 3)
is rejected while one with 5 keywords is accepted, and a short title is
rejected rather than repaired. -/
theorem validate_error_iff :
    (∀ data : Record,
      exceptOk (validateAIResponse data) =
        (titleOk data && descrOk data && keywordsOk data)) ∧
    exceptOk (validateAIResponse
      { baseRecord with keywords := some ["azulejo", "porto"] }) = false ∧
    exceptOk (validateAIResponse
      { baseRecord with keywords := some ["a", "b", "c", "d", "e"] }) = true ∧
    exceptOk (validateAIResponse
      { baseRecord with pinterest_title := some "short" }) = false := by
  refine ⟨?_, by with_unfolding_all rfl, by with_unfolding_all rfl, by with_unfolding_all rfl⟩
  intro data
  unfold validateAIResponse
  split_ifs with h1 h2 h3 <;>
    simp_all [exceptOk]

/-! ## C6 — board allow-list fallback -/

/-- C6: when the record passes the hard checks but its board is not in
`ALLOWED_BOARDS` (or is not a string), `validateAIResponse` silently
replaces the board with the allow-list's first element
`"Portugal Gift Ideas"` and raises no error; and every record it returns
has a board belonging to `ALLOWED_BOARDS`. -/
theorem board_fallback (data : Record)
    (ht : titleOk data = true) (hd : descrOk data = true) (hk : keywordsOk data = true)
    (hb : ∀ b, data.board = some b → b ∉ ALLOWED_BOARDS) :
    validateAIResponse data =
      .ok { data with board := some "Portugal Gift Ideas",
                      crop := some (fixCrop data.crop) } ∧
    (∀ d res, validateAIResponse d = .ok res →
      ∃ b, res.board = some b ∧ b ∈ ALLOWED_BOARDS) := by
  constructor
  · apply (validate_ok_iff data _).mpr
    refine ⟨ht, hd, hk, ?_⟩
    have hb' : fixBoard data.board = "Portugal Gift Ideas" := by
      match hbd : data.board with
      | none => rfl
      | some s =>
        show (if s ∈ ALLOWED_BOARDS then s else ALLOWED_BOARDS.headI) = _
        rw [if_neg (hb s hbd)]
        rfl
    rw [hb']
  · intro d res h
    obtain ⟨-, -, -, hres⟩ := (validate_ok_iff d res).mp h
    exact ⟨fixBoard d.board, by rw [hres], fixBoard_mem d.board⟩

set_option maxRecDepth 20000 in
/-- C6, witness: the theorem applied to a record with
`board = "Nonexistent Board"`, which is returned with
`board = "Portugal Gift Ideas"` and no error. -/
theorem board_fallback_witness :
    validateAIResponse { baseRecord with board := some "Nonexistent Board" } =
      .ok { baseRecord with board := some "Portugal Gift Ideas" } ∧
    "Portugal Gift Ideas" ∈ ALLOWED_BOARDS := by
  have h := board_fallback { baseRecord with board := some "Nonexistent Board" }
    (by with_unfolding_all rfl) (by with_unfolding_all rfl) (by with_unfolding_all rfl)
    (fun b hb => by cases hb; simp [ALLOWED_BOARDS])
  exact ⟨h.1.trans (by with_unfolding_all rfl), by simp [ALLOWED_BOARDS]⟩

/-! ## C9 — frame property of `validateAIResponse` -/

/-- C9: whenever `validateAIResponse` returns a record, its title,
description and keywords are exactly those of the input; only `board`
and `crop` can differ. -/
theorem validate_frame (data res : Record)
    (h : validateAIResponse data = .ok res) :
    res.pinterest_title = data.pinterest_title ∧
    res.pinterest_description = data.pinterest_description ∧
    res.keywords = data.keywords := by
  obtain ⟨-, -, -, hres⟩ := (validate_ok_iff data res).mp h
  rw [hres]
  exact ⟨rfl, rfl, rfl⟩

set_option maxRecDepth 20000 in
/-- C9, witness: the theorem applied to a record whose board gets
corrected; title, description and keywords come back unchanged. -/
theorem validate_frame_witness :
    ({ baseRecord with board := some "Portugal Gift Ideas" } : Record).pinterest_title =
      ({ baseRecord with board := some "Other" } : Record).pinterest_title ∧
    ({ baseRecord with board := some "Portugal Gift Ideas" } : Record).pinterest_description =
      ({ baseRecord with board := some "Other" } : Record).pinterest_description ∧
    ({ baseRecord with board := some "Portugal Gift Ideas" } : Record).keywords =
      ({ baseRecord with board := some "Other" } : Record).keywords :=
  validate_frame { baseRecord with board := some "Other" }
    { baseRecord with board := some "Portugal Gift Ideas" }
    (by with_unfolding_all rfl)

/-! ## C10 — crop with numeric `x` passes through unchecked -/

/-- C10: whenever `validateAIResponse` returns a record and the input
crop is present with a numeric `x` field, the returned record carries
that crop object unchanged — even when `y`, `width` or `height` are
absent, non-numeric or out of range — so the returned crop may violate
the crop range invariant. -/
theorem crop_passthrough (data res : Record) (cv : CropVal) (q : ℚ)
    (h : validateAIResponse data = .ok res)
    (hc : data.crop = some cv) (hx : cv.x = .num q) :
    res.crop = some cv := by
  obtain ⟨-, -, -, hres⟩ := (validate_ok_iff data res).mp h
  rw [hres]
  show some (fixCrop data.crop) = some cv
  rw [hc]
  obtain ⟨x, y, w, hgt⟩ := cv
  cases hx
  rfl

set_option maxRecDepth 20000 in
/-- C10, witness: the theorem applied to a record whose crop is
`{x: 5, y: ✗, width: ✗, height: ✗}` (numeric `x`, nothing else valid);
the crop is returned untouched and violates the range invariant. -/
theorem crop_passthrough_witness :
    ({ baseRecord with crop := some numericXCrop } : Record).crop = some numericXCrop ∧
    validateAIResponse { baseRecord with crop := some numericXCrop } =
      .ok { baseRecord with crop := some numericXCrop } ∧
    ¬ cropValInRange numericXCrop := by
  have hv : validateAIResponse { baseRecord with crop := some numericXCrop } =
      .ok { baseRecord with crop := some numericXCrop } := by
    with_unfolding_all rfl
  refine ⟨crop_passthrough { baseRecord with crop := some numericXCrop }
    { baseRecord with crop := some numericXCrop } numericXCrop 5 hv rfl rfl, hv, ?_⟩
  intro h
  exact h.2.1

/-! ## C7 — fence-stripping and JSON parsing -/

/-- C7: the fence-strip-and-parse step is total (it always returns
either a parsed value or a `ParseError` to the caller, never an uncaught
throw); on `"```json\n{\"a\":1}\n```"` it strips the fence and returns
the object `{a: 1}`; on `"not json"`, and on text that is empty after
fence-stripping (e.g. `"```\n```"`), it returns the JSON-parse error. -/
theorem parseModelOutput_spec :
    parseModelOutput "```json\n\x7b\"a\":1\x7d\n```" = .ok (Json.obj [("a", Json.num 1)]) ∧
    parseModelOutput "not json" = .error .invalidJson ∧
    parseModelOutput "```\n```" = .error .invalidJson ∧
    (∀ raw : String, (∃ v, parseModelOutput raw = .ok v) ∨
      (∃ e, parseModelOutput raw = .error e)) := by
  refine ⟨by with_unfolding_all rfl, by with_unfolding_all rfl, by with_unfolding_all rfl, ?_⟩
  intro raw
  match h : parseModelOutput raw with
  | .ok v => exact Or.inl ⟨v, rfl⟩
  | .error e => exact Or.inr ⟨e, rfl⟩

end VivaPortugal
